import Mathlib

/-!
Shallow embedding of the `http-tap` proxy core (`src/http-tap/src/proxy.rs`
and `src/http-tap/src/stats.rs`).

Modelling conventions:
* Header names are `String`s already lowercased (hyper's `HeaderMap`
  normalises every header name to lowercase ASCII).
* Header values are raw byte lists (`List Nat`, each entry < 256), matching
  `http::HeaderValue` which can hold arbitrary opaque bytes.
* A `HeaderMap` is an association list of name/value pairs; `remove` drops
  every entry of a name and `insert` replaces every entry of a name by a
  single one, exactly as in the `http` crate.
* Machine integers (`u64` counters) are `Nat` with explicit `% 2 ^ 64`.
* The asynchronous handler is embedded as a pure function over an
  environment record that fixes the outcome of each I/O suspension point
  (body read, upstream exchange); spawning the relay task is recorded as a
  boolean field of the result.
-/

namespace HttpTap

/-- ASCII lowercasing of a single character, as Rust's
`u8::to_ascii_lowercase` / `eq_ignore_ascii_case` does byte-wise. -/
def asciiLowerChar (c : Char) : Char :=
  if 65 ≤ c.toNat ∧ c.toNat ≤ 90 then Char.ofNat (c.toNat + 32) else c

/-- Model of Rust `str::eq_ignore_ascii_case`. -/
def eqIgnoreAsciiCase (a b : String) : Bool :=
  a.data.map asciiLowerChar = b.data.map asciiLowerChar

/-- UTF-8 encoding of one Unicode scalar value. -/
def utf8Char (n : Nat) : List Nat :=
  if n < 128 then [n]
  else if n < 2048 then [192 + n / 64, 128 + n % 64]
  else if n < 65536 then [224 + n / 4096, 128 + (n / 64) % 64, 128 + n % 64]
  else [240 + n / 262144, 128 + (n / 4096) % 64, 128 + (n / 64) % 64, 128 + n % 64]

/-- UTF-8 bytes of a string (Rust `str::as_bytes`). -/
def strBytes (s : String) : List Nat :=
  s.data.foldr (fun c acc => utf8Char c.toNat ++ acc) []

/-- A byte allowed by `http::HeaderValue::to_str`: visible ASCII or tab
(`b >= 32 && b < 127 || b == 9`). -/
def isVisibleAsciiByte (b : Nat) : Bool :=
  (32 ≤ b && b < 127) || b = 9

/-- Model of `HeaderValue::to_str`: succeeds iff every byte is visible
ASCII or tab, returning the corresponding string. -/
def headerValueToStr (v : List Nat) : Option String :=
  if v.all isVisibleAsciiByte then some (String.mk (v.map Char.ofNat)) else none

/-- A byte allowed inside a `HeaderValue` built by `from_str`
(`b >= 32 && b != 127 || b == 9`; bytes ≥ 128 arise from multi-byte UTF-8
and are allowed as obs-text). -/
def isLegalHeaderValueByte (b : Nat) : Bool :=
  (32 ≤ b && b ≠ 127) || b = 9

/-- Model of `HeaderValue::from_str`: succeeds iff every byte of the UTF-8
encoding is a legal header-value byte. -/
def headerValueFromStr (s : String) : Option (List Nat) :=
  if (strBytes s).all isLegalHeaderValueByte then some (strBytes s) else none

/-- Header map: association list of lowercase names to raw byte values. -/
abbrev HeaderMap := List (String × List Nat)

/-- `HeaderMap::remove(name)`: drops every value stored under `name`. -/
def HeaderMap.removeName (m : HeaderMap) (name : String) : HeaderMap :=
  List.filter (fun e => e.1 ≠ name) m

/-- `HeaderMap::insert(name, v)`: replaces all values of `name` by `v`. -/
def HeaderMap.insertH (m : HeaderMap) (name : String) (v : List Nat) : HeaderMap :=
  m.removeName name ++ [(name, v)]

/-- `HeaderMap::get(name)`: first value stored under `name`. -/
def HeaderMap.getH (m : HeaderMap) (name : String) : Option (List Nat) :=
  (List.find? (fun e => e.1 = name) m).map Prod.snd

/-- The names present in the map. -/
def HeaderMap.names (m : HeaderMap) : List String :=
  List.map Prod.fst m

/-- The fields of `proxy::Config` the forwarding core reads.  The omitted
fields (`listen`, `tls`, `insecure_upstream`, CA/client-certificate paths,
`upstream_server_name`) only configure socket setup and TLS material and
are never read by the request-handling functions embedded here; the stats
sender handle is abstracted to whether it is present (`hasStats`). -/
structure Config where
  target_authority : String
  target_scheme : String
  include_bodies : Bool
  max_body_bytes : Nat
  redact_header : List String
  upstream_host : Option String
  hasStats : Bool
deriving DecidableEq

/-- The hop-by-hop header list `HOP` of `copy_headers_forward`. -/
def HOP : List String :=
  ["connection", "proxy-connection", "keep-alive", "transfer-encoding",
   "upgrade", "te", "trailer"]

/-- `copy_headers_forward`: removes the hop-by-hop headers, then overwrites
`host` with the configured override (else the target authority), falling
back to the literal `localhost` when that string is not a legal header
value.  The result is assigned wholesale to the outbound header map. -/
def copy_headers_forward (in_headers : HeaderMap) (cfg : Config) : HeaderMap :=
  let stripped := HOP.foldl (fun m name => m.removeName name) in_headers
  let host_value := cfg.upstream_host.getD cfg.target_authority
  let hv := (headerValueFromStr host_value).getD (strBytes "localhost")
  stripped.insertH "host" hv

/-- Model of `http::Uri`: the components the proxy reads and writes.
`pathAndQuery = none` corresponds to a URI with no path-and-query part
(e.g. authority form). -/
structure Uri where
  scheme : Option String
  authority : Option String
  pathAndQuery : Option String
deriving DecidableEq

/-- `Uri::from_static("/")`, the fallback of `remap_uri`. -/
def uriRoot : Uri := ⟨none, none, some "/"⟩

/-- Character allowed in a URI scheme (alphanumeric, `+`, `-`, `.`). -/
def isSchemeChar (c : Char) : Bool :=
  c.isAlphanum || c = Char.ofNat 43 || c = Char.ofNat 45 || c = Char.ofNat 46

/-- Character allowed in a URI authority: alphanumeric or one of
`-._~%!$&'()*+,;=:@[]`.  In particular a space is rejected, as in the
`http` crate's URI parser. -/
def isAuthorityChar (c : Char) : Bool :=
  c.isAlphanum || ("-._~%!$&()*+,;=:@[]".data ++ [Char.ofNat 39]).contains c

/-- Character allowed in a path-and-query: printable ASCII except space
(a permissive model of the `http` crate's path/query character table; the
inputs the proxy feeds it only use unreserved/query characters). -/
def isPathQueryChar (c : Char) : Bool :=
  33 ≤ c.toNat && c.toNat ≤ 126

/-- Splits a character list at the first occurrence of `sep`
(`none` when absent). -/
def splitFirst (sep : Char) : List Char → Option (List Char × List Char)
  | [] => none
  | c :: rest =>
    if c = sep then some ([], rest)
    else match splitFirst sep rest with
      | some (a, b) => some (c :: a, b)
      | none => none

/-- Model of `str::parse::<Uri>()` on absolute-form input
`scheme "://" authority path-and-query`: succeeds iff the scheme,
authority and path-and-query are made of legal characters, the scheme
starts with a letter, and the authority is nonempty.  An empty remainder
after the authority yields `pathAndQuery = none`. -/
def parseUri (s : String) : Option Uri :=
  match splitFirst (Char.ofNat 58) s.data with
  | none => none
  | some (schemeChars, rest) =>
    match rest with
    | c1 :: c2 :: rest2 =>
      if c1 = Char.ofNat 47 ∧ c2 = Char.ofNat 47 then
        let authChars := rest2.takeWhile (fun c =>
          isAuthorityChar c && c ≠ Char.ofNat 47 && c ≠ Char.ofNat 63 && c ≠ Char.ofNat 35)
        let pqChars := rest2.drop authChars.length
        if schemeChars ≠ [] ∧ schemeChars.all isSchemeChar ∧
            (schemeChars.head?.any Char.isAlpha) ∧
            authChars ≠ [] ∧ pqChars.all isPathQueryChar ∧
            (pqChars = [] ∨ pqChars.head? = some (Char.ofNat 47)) then
          some ⟨some (String.mk schemeChars), some (String.mk authChars),
                if pqChars = [] then none else some (String.mk pqChars)⟩
        else none
      else none
    | _ => none

/-- `remap_uri`: keep the request's path-and-query (defaulting to `/`),
replace scheme and authority by the configured target, reparse; on parse
failure fall back to the URI `/`. -/
def remap_uri (uri : Uri) (cfg : Config) : Uri :=
  let path_and_query := uri.pathAndQuery.getD "/"
  let full := cfg.target_scheme ++ "://" ++ cfg.target_authority ++ path_and_query
  (parseUri full).getD uriRoot

/-- One logged header line: the name and the displayed value. -/
def displayHeader (headers : HeaderMap) (redact : List String) (name : String) :
    Option (String × String) :=
  match headers.getH name with
  | none => none
  | some val =>
    let display :=
      if redact.any (fun r => eqIgnoreAsciiCase r name) then "<redacted>"
      else match headerValueToStr val with
        | some s => s
        | none => "<" ++ toString val.length ++ " bytes>"
    some (name, display)

/-- Insert into a sorted list of names (ascending). -/
def insertSorted (x : String) : List String → List String
  | [] => [x]
  | y :: t => if x ≤ y then x :: y :: t else y :: insertSorted x t

/-- Sorting of header names, modelling `names.sort_unstable()` (insertion
sort; on the duplicate-free name lists it is applied to, any comparison
sort produces this same ascending order). -/
def sortNames (l : List String) : List String :=
  l.foldr insertSorted []

/-- `print_headers`: collect the distinct header names, sort them, and
print each name with its (possibly redacted) displayed value.  Returns the
list of printed lines as name/display pairs. -/
def print_headers (headers : HeaderMap) (redact : List String) :
    List (String × String) :=
  let names := sortNames headers.names.dedup
  names.filterMap (displayHeader headers redact)

/-- Is `b` a UTF-8 continuation byte (`0x80 ≤ b ≤ 0xBF`)? -/
def isContByte (b : Nat) : Bool := 128 ≤ b && b ≤ 191

/-- The replacement character U+FFFD used by `String::from_utf8_lossy`. -/
def replacementChar : Char := Char.ofNat 65533

/-- Model of `String::from_utf8_lossy` as a character list: decodes valid
UTF-8 sequences and replaces ill-formed input by U+FFFD; total, never
fails.  Every step consumes at least one byte, so a fuel of `l.length`
(supplied by `utf8LossyChars` below) always suffices. -/
def utf8LossyGo : Nat → List Nat → List Char
  | 0, _ => []
  | _ + 1, [] => []
  | fuel + 1, b :: rest =>
    if b < 128 then Char.ofNat b :: utf8LossyGo fuel rest
    else if 194 ≤ b ∧ b ≤ 223 then
      match rest with
      | b2 :: rest2 =>
        if isContByte b2 then
          Char.ofNat ((b - 192) * 64 + (b2 - 128)) :: utf8LossyGo fuel rest2
        else replacementChar :: utf8LossyGo fuel (b2 :: rest2)
      | [] => [replacementChar]
    else if 224 ≤ b ∧ b ≤ 239 then
      match rest with
      | b2 :: b3 :: rest3 =>
        let n := (b - 224) * 4096 + (b2 - 128) * 64 + (b3 - 128)
        if isContByte b2 ∧ isContByte b3 ∧ 2048 ≤ n ∧ ¬ (55296 ≤ n ∧ n ≤ 57343) then
          Char.ofNat n :: utf8LossyGo fuel rest3
        else replacementChar :: utf8LossyGo fuel (b2 :: b3 :: rest3)
      | _ => [replacementChar]
    else if 240 ≤ b ∧ b ≤ 244 then
      match rest with
      | b2 :: b3 :: b4 :: rest4 =>
        let n := (b - 240) * 262144 + (b2 - 128) * 4096 + (b3 - 128) * 64 + (b4 - 128)
        if isContByte b2 ∧ isContByte b3 ∧ isContByte b4 ∧ 65536 ≤ n ∧ n ≤ 1114111 then
          Char.ofNat n :: utf8LossyGo fuel rest4
        else replacementChar :: utf8LossyGo fuel (b2 :: b3 :: b4 :: rest4)
      | _ => [replacementChar]
    else replacementChar :: utf8LossyGo fuel rest

/-- `String::from_utf8_lossy` packaged as a `String`. -/
def utf8Lossy (bytes : List Nat) : String :=
  String.mk (utf8LossyGo bytes.length bytes)

/-- What `print_body` prints for one body. -/
inductive BodyPreview where
  | noBody
  | truncated (printable : String) (takeN len : Nat)
  | full (printable : String) (len : Nat)
deriving DecidableEq

/-- `print_body`: show at most `max` bytes.  When `min (len, max) = 0`
print the `<no body>` marker; when the body is longer than the shown
prefix print the truncated form (with byte counts and a trailing `…`
marker); otherwise print the whole body. -/
def print_body (body : List Nat) (max : Nat) : BodyPreview :=
  let takeN := Nat.min body.length max
  if takeN = 0 then .noBody
  else
    let printable := utf8Lossy (body.take takeN)
    if body.length > takeN then .truncated printable takeN body.length
    else .full printable body.length

/-- Model of Rust `str::split(sep)` on a character list: the separator is
consumed, empty tokens are kept, and the empty string yields one empty
token. -/
def splitChar (sep : Char) : List Char → List (List Char)
  | [] => [[]]
  | c :: rest =>
    if c = sep then [] :: splitChar sep rest
    else
      match splitChar sep rest with
      | t :: ts => (c :: t) :: ts
      | [] => [[c]]

/-- Model of Rust `str::trim`: drop whitespace from both ends. -/
def trimChars (l : List Char) : List Char :=
  ((l.dropWhile Char.isWhitespace).reverse.dropWhile Char.isWhitespace).reverse

/-- `is_websocket_upgrade`: the request has an `upgrade` header equal to
`websocket` (ASCII case-insensitive) and a `connection` header one of
whose comma-separated tokens, trimmed, equals `upgrade`
(ASCII case-insensitive). -/
def is_websocket_upgrade (headers : HeaderMap) : Bool :=
  let upgr :=
    match headers.getH "upgrade" with
    | some v =>
      match headerValueToStr v with
      | some s => eqIgnoreAsciiCase s "websocket"
      | none => false
    | none => false
  if !upgr then false
  else
    match headers.getH "connection" with
    | some v =>
      match headerValueToStr v with
      | some s =>
        (splitChar (Char.ofNat 44) s.data).any
          (fun t => eqIgnoreAsciiCase (String.mk (trimChars t)) "upgrade")
      | none => false
    | none => false

/-- `stats::StatsEvent`: method, pre-rewrite path, timestamp (modelled as
a plain number). -/
structure StatsEvent where
  method : String
  path : String
  atTime : Nat
deriving DecidableEq

/-- `stats::MethodCounts` (all `u64`). -/
structure MethodCounts where
  get : Nat
  post : Nat
  put : Nat
  patch : Nat
  delete_ : Nat
  other : Nat
deriving DecidableEq

def MethodCounts.default : MethodCounts := ⟨0, 0, 0, 0, 0, 0⟩

/-- Bump the counter matching the method (`u64` increment, wrapping). -/
def MethodCounts.bump (c : MethodCounts) (method : String) : MethodCounts :=
  if method = "GET" then { c with get := (c.get + 1) % 2 ^ 64 }
  else if method = "POST" then { c with post := (c.post + 1) % 2 ^ 64 }
  else if method = "PUT" then { c with put := (c.put + 1) % 2 ^ 64 }
  else if method = "PATCH" then { c with patch := (c.patch + 1) % 2 ^ 64 }
  else if method = "DELETE" then { c with delete_ := (c.delete_ + 1) % 2 ^ 64 }
  else { c with other := (c.other + 1) % 2 ^ 64 }

/-- `stats::Record`. -/
structure Record where
  path : String
  counts : MethodCounts
  last_seen : Nat
deriving DecidableEq

/-- `stats::Aggregator`: a map keyed by the event's full path string,
modelled as an association list with unique keys. -/
structure Aggregator where
  map : List (String × Record)

def Aggregator.empty : Aggregator := ⟨[]⟩

/-- `Aggregator::apply`: find or create the record keyed by `ev.path`,
bump the counter of the event's method, update `last_seen`. -/
def Aggregator.apply (a : Aggregator) (ev : StatsEvent) : Aggregator :=
  match a.map.find? (fun e => e.1 = ev.path) with
  | some _ =>
    ⟨a.map.map (fun e =>
      if e.1 = ev.path then
        (e.1, { e.2 with counts := e.2.counts.bump ev.method, last_seen := ev.atTime })
      else e)⟩
  | none =>
    ⟨a.map ++ [(ev.path, ⟨ev.path, MethodCounts.default.bump ev.method, ev.atTime⟩)]⟩

/-- A buffered HTTP response as the handler produces it. -/
structure Response where
  status : Nat
  headers : HeaderMap
  body : List Nat
deriving DecidableEq

/-- `simple_response`: the synthesized error response — given status, a
`content-type: text/plain; charset=utf-8` header and the message as the
body. -/
def simple_response (status : Nat) (msg : String) : Response :=
  { status := status
  , headers := [("content-type", strBytes "text/plain; charset=utf-8")]
  , body := strBytes msg }

/-- A buffered request as built for the upstream client. -/
structure Request where
  method : String
  uri : Uri
  headers : HeaderMap
  body : List Nat
deriving DecidableEq

/-- Outcome of one upstream exchange: response status and headers, and the
result of collecting the response body (`none` = body read error; the
WebSocket path never reads the body). -/
structure UpstreamOutcome where
  status : Nat
  headers : HeaderMap
  bodyRead : Option (List Nat)
deriving DecidableEq

/-- The environment of one `handle` invocation: the inbound request parts
and the outcome of each I/O suspension point. `bodyRead = none` models a
request-body read error; `upstream = none` models a failed upstream
dispatch. -/
structure ForwardEnv where
  reqMethod : String
  reqUri : Uri
  reqHeaders : HeaderMap
  bodyRead : Option (List Nat)
  upstream : Option UpstreamOutcome
  now : Nat
deriving DecidableEq

instance : DecidableEq (Except Unit Response) := fun a b =>
  match a, b with
  | .ok x, .ok y => if h : x = y then .isTrue (by rw [h]) else .isFalse (by simp [h])
  | .error x, .error y => .isTrue (by cases x; cases y; rfl)
  | .ok _, .error _ => .isFalse (by simp)
  | .error _, .ok _ => .isFalse (by simp)

/-- Everything observable about one `handle` invocation: the value
returned to the serving loop (`Except` models `Result<_, hyper::Error>`;
the handler never returns `Err`), the request dispatched upstream (if it
got that far), the stats events emitted, whether the relay task was
spawned, and which branch ran. -/
structure HandleOut where
  result : Except Unit Response
  forwardedReq : Option Request
  stats : List StatsEvent
  relaySpawned : Bool
  tunneled : Bool
deriving DecidableEq

/-- The WebSocket branch of `handle` (lines 140–228 of proxy.rs): capture
the hop-by-hop WebSocket handshake headers, rebuild a bodiless forwarded
request through `remap_uri`/`copy_headers_forward`, reinsert the captured
headers, dispatch; a dispatch failure yields 502, a non-101 status yields
502, and only a 101 mirrors the upstream headers back and spawns the
relay. -/
def optInsert (m : HeaderMap) (name : String) (v : Option (List Nat)) : HeaderMap :=
  match v with
  | some v => m.insertH name v
  | none => m

def wsForwardHeaders (cfg : Config) (env : ForwardEnv) : HeaderMap :=
  let h0 := copy_headers_forward env.reqHeaders cfg
  let h1 := optInsert h0 "connection" (env.reqHeaders.getH "connection")
  let h2 := optInsert h1 "upgrade" (env.reqHeaders.getH "upgrade")
  let h3 := optInsert h2 "sec-websocket-key" (env.reqHeaders.getH "sec-websocket-key")
  let h4 := optInsert h3 "sec-websocket-version" (env.reqHeaders.getH "sec-websocket-version")
  let h5 := optInsert h4 "sec-websocket-protocol" (env.reqHeaders.getH "sec-websocket-protocol")
  optInsert h5 "sec-websocket-extensions" (env.reqHeaders.getH "sec-websocket-extensions")

def handleWs (cfg : Config) (env : ForwardEnv) : HandleOut :=
  let forwarded : Request :=
    { method := env.reqMethod, uri := remap_uri env.reqUri cfg
    , headers := wsForwardHeaders cfg env, body := [] }
  match env.upstream with
  | none =>
    { result := .ok (simple_response 502 "upstream WS handshake failed")
    , forwardedReq := some forwarded, stats := [], relaySpawned := false, tunneled := true }
  | some up =>
    if up.status ≠ 101 then
      { result := .ok (simple_response 502 "upstream did not switch protocols")
      , forwardedReq := some forwarded, stats := [], relaySpawned := false, tunneled := true }
    else
      { result := .ok { status := 101, headers := up.headers, body := [] }
      , forwardedReq := some forwarded, stats := [], relaySpawned := true, tunneled := true }

/-- The plain-forwarding branch of `handle` (lines 230–292 of proxy.rs):
collect the request body (400 on failure), rewrite URI and headers, emit
one stats event when a sender is configured, dispatch (502 on failure),
collect the response body (502 on failure), and return the upstream
status/headers with the buffered body. -/
def handleForward (cfg : Config) (env : ForwardEnv) : HandleOut :=
  match env.bodyRead with
  | none =>
    { result := .ok (simple_response 400 "body error")
    , forwardedReq := none, stats := [], relaySpawned := false, tunneled := false }
  | some req_bytes =>
    let forwarded : Request :=
      { method := env.reqMethod
      , uri := remap_uri env.reqUri cfg
      , headers := copy_headers_forward env.reqHeaders cfg
      , body := req_bytes }
    let stats :=
      if cfg.hasStats then
        [{ method := env.reqMethod
         , path := env.reqUri.pathAndQuery.getD "/"
         , atTime := env.now }]
      else []
    match env.upstream with
    | none =>
      { result := .ok (simple_response 502 "upstream connection failed")
      , forwardedReq := some forwarded, stats := stats, relaySpawned := false, tunneled := false }
    | some up =>
      match up.bodyRead with
      | none =>
        { result := .ok (simple_response 502 "upstream body error")
        , forwardedReq := some forwarded, stats := stats, relaySpawned := false, tunneled := false }
      | some resp_bytes =>
        { result := .ok { status := up.status, headers := up.headers, body := resp_bytes }
        , forwardedReq := some forwarded, stats := stats, relaySpawned := false, tunneled := false }

/-- `handle`: dispatch on `is_websocket_upgrade`. -/
def handle (cfg : Config) (env : ForwardEnv) : HandleOut :=
  if is_websocket_upgrade env.reqHeaders then handleWs cfg env
  else handleForward cfg env

/-- `ProxyState::next_conn_id` (`fetch_add(1, Relaxed)` on a `u64`):
returns the old counter value, stores the wrapped successor. -/
def next_conn_id (counter : Nat) : Nat × Nat :=
  (counter, (counter + 1) % 2 ^ 64)

/-- The ids handed out by `n` successive mints starting from counter value
`c`.  Atomicity of `fetch_add` means any concurrent execution of `n`
mints linearises to exactly this sequence (in some order). -/
def mintIds : Nat → Nat → List Nat
  | 0, _ => []
  | Nat.succ n, c => (next_conn_id c).1 :: mintIds n (next_conn_id c).2

/-- The counter value `AtomicU64::new(1)` the proxy starts with. -/
def initialConnSeq : Nat := 1

/-! ### Sample configurations and environments used by concrete instances -/

/-- A representative configuration: plain-HTTP target, default CLI
redaction set, stats enabled. -/
def cfgBase : Config :=
  { target_authority := "up.example:8080"
  , target_scheme := "http"
  , include_bodies := true
  , max_body_bytes := 2048
  , redact_header := ["authorization", "cookie", "set-cookie"]
  , upstream_host := none
  , hasStats := true }

/-- A plain GET request environment whose upstream response carries a
`transfer-encoding` hop-by-hop header. -/
def envPlain : ForwardEnv :=
  { reqMethod := "GET"
  , reqUri := ⟨none, none, some "/foo?x=1"⟩
  , reqHeaders := [("host", strBytes "client.example"), ("accept", strBytes "*/*")]
  , bodyRead := some []
  , upstream := some
      { status := 200
      , headers := [("transfer-encoding", strBytes "chunked"),
                    ("content-type", strBytes "text/html")]
      , bodyRead := some (strBytes "ok") }
  , now := 0 }

/-- A WebSocket upgrade request environment whose upstream answers 200
instead of 101. -/
def envWs200 : ForwardEnv :=
  { reqMethod := "GET"
  , reqUri := ⟨none, none, some "/socket"⟩
  , reqHeaders := [("host", strBytes "client.example"),
                   ("upgrade", strBytes "websocket"),
                   ("connection", strBytes "keep-alive, Upgrade"),
                   ("sec-websocket-key", strBytes "dGhlIHNhbXBsZSBub25jZQ==")]
  , bodyRead := some []
  , upstream := some { status := 200, headers := [], bodyRead := some [] }
  , now := 0 }

/-! ### Helper lemmas on the header-map model -/

theorem mem_removeName {m : HeaderMap} {e : String × List Nat} {n : String}
    (he : e ∈ m) (hne : e.1 ≠ n) : e ∈ m.removeName n := by
  unfold HeaderMap.removeName
  exact List.mem_filter.mpr ⟨he, by simpa using hne⟩

theorem mem_of_mem_removeName {m : HeaderMap} {e : String × List Nat} {n : String}
    (he : e ∈ m.removeName n) : e ∈ m :=
  (List.mem_filter.mp he).1

theorem not_mem_names_removeName (m : HeaderMap) (n : String) :
    n ∉ (m.removeName n).names := by
  intro h
  obtain ⟨e, he, hn⟩ := List.mem_map.mp h
  have := (List.mem_filter.mp he).2
  simp only [decide_eq_true_eq] at this
  exact this hn

theorem not_mem_names_removeName_of_not_mem {m : HeaderMap} {n n' : String}
    (h : n ∉ m.names) : n ∉ (m.removeName n').names := by
  intro hmem
  obtain ⟨e, he, hn⟩ := List.mem_map.mp hmem
  exact h (List.mem_map.mpr ⟨e, mem_of_mem_removeName he, hn⟩)

theorem names_foldl_removeName_of_not_mem (l : List String) (m : HeaderMap) (n : String)
    (h : n ∉ m.names) : n ∉ (l.foldl (fun m name => m.removeName name) m).names := by
  induction l generalizing m with
  | nil => simpa using h
  | cons a t ih =>
    simp only [List.foldl_cons]
    exact ih _ (not_mem_names_removeName_of_not_mem h)

theorem names_foldl_removeName_of_mem (l : List String) (m : HeaderMap) (n : String)
    (hn : n ∈ l) : n ∉ (l.foldl (fun m name => m.removeName name) m).names := by
  induction l generalizing m with
  | nil => cases hn
  | cons a t ih =>
    simp only [List.foldl_cons]
    rcases List.mem_cons.mp hn with rfl | hmem
    · exact names_foldl_removeName_of_not_mem t _ n (not_mem_names_removeName m n)
    · exact ih _ hmem

theorem mem_foldl_removeName {l : List String} {m : HeaderMap} {e : String × List Nat}
    (he : e ∈ m) (hn : e.1 ∉ l) : e ∈ l.foldl (fun m name => m.removeName name) m := by
  induction l generalizing m with
  | nil => simpa using he
  | cons a t ih =>
    simp only [List.foldl_cons]
    have hne : e.1 ≠ a := fun h => hn (by simp [h])
    exact ih (mem_removeName he hne) (fun h => hn (List.mem_cons.mpr (Or.inr h)))

theorem find?_removeName_self (m : HeaderMap) (n : String) :
    List.find? (fun e => e.1 = n) (m.removeName n) = none := by
  rw [List.find?_eq_none]
  intro e he
  have := (List.mem_filter.mp he).2
  simpa using this

theorem getH_insertH_self (m : HeaderMap) (n : String) (v : List Nat) :
    (m.insertH n v).getH n = some v := by
  unfold HeaderMap.insertH HeaderMap.getH
  rw [List.find?_append, find?_removeName_self]
  simp

theorem find?_removeName_ne (m : HeaderMap) {n n' : String} (h : n' ≠ n) :
    List.find? (fun e => e.1 = n) (m.removeName n') =
      List.find? (fun e => e.1 = n) m := by
  induction m with
  | nil => rfl
  | cons e t ih =>
    simp only [HeaderMap.removeName, List.filter_cons] at ih ⊢
    by_cases he : e.1 = n'
    · have h1 : ¬ (e.1 = n) := by rw [he]; exact h
      rw [if_neg (by simp [he])]
      rw [ih, List.find?_cons]
      simp [h1]
    · rw [if_pos (by simp [he])]
      rw [List.find?_cons, List.find?_cons]
      by_cases hn : e.1 = n
      · rw [decide_eq_true hn]
      · rw [decide_eq_false hn]
        exact ih

theorem getH_insertH_ne (m : HeaderMap) {n n' : String} (v : List Nat)
    (h : n' ≠ n) : (m.insertH n' v).getH n = m.getH n := by
  unfold HeaderMap.insertH HeaderMap.getH
  rw [List.find?_append, find?_removeName_ne m h]
  have : (List.find? (fun e => decide (e.1 = n)) [(n', v)]) = none := by
    simp [List.find?_cons, h]
  rw [this]
  cases List.find? (fun e => decide (e.1 = n)) m <;> rfl

theorem getH_optInsert_ne (m : HeaderMap) {n n' : String} (v : Option (List Nat))
    (h : n' ≠ n) : (optInsert m n' v).getH n = m.getH n := by
  cases v with
  | none => rfl
  | some v => exact getH_insertH_ne m v h

theorem names_insertH (m : HeaderMap) (n : String) (v : List Nat) :
    (m.insertH n v).names = (m.removeName n).names ++ [n] := by
  simp [HeaderMap.insertH, HeaderMap.names]

/-! ### C1 -/

/-- C1, counterexample.  The claim says hop-by-hop headers never cross the
proxy in either direction; but the upstream-to-client direction copies the
upstream response headers verbatim (`*out.headers_mut() = resp_parts.headers`,
proxy.rs:288), so a `transfer-encoding` header in the upstream response is
returned to the client unchanged. -/
theorem C1_counterexample :
    (handle cfgBase envPlain).result =
      .ok ⟨200, [("transfer-encoding", strBytes "chunked"),
                 ("content-type", strBytes "text/html")], strBytes "ok"⟩ ∧
    "transfer-encoding" ∈ HOP ∧
    "transfer-encoding" ∈
      HeaderMap.names [("transfer-encoding", strBytes "chunked"),
                       ("content-type", strBytes "text/html")] := by
  decide

/-- C1, amended: in the client-to-upstream direction no hop-by-hop header
survives `copy_headers_forward` (the WebSocket handshake path then
deliberately reinserts the captured `connection`/`upgrade` headers); in the
upstream-to-client direction the response headers are forwarded verbatim,
hop-by-hop headers included. -/
theorem C1_amended (cfg : Config) (hm : HeaderMap) (name : String)
    (env : ForwardEnv) (up : UpstreamOutcome) (bs : List Nat)
    (hname : name ∈ HOP)
    (hws : is_websocket_upgrade env.reqHeaders = false)
    (hbody : ∃ rb, env.bodyRead = some rb)
    (hup : env.upstream = some up)
    (hbs : up.bodyRead = some bs) :
    name ∉ (copy_headers_forward hm cfg).names ∧
    (handle cfg env).result = .ok ⟨up.status, up.headers, bs⟩ := by
  constructor
  · intro hmem
    unfold copy_headers_forward at hmem
    rw [names_insertH] at hmem
    rcases List.mem_append.mp hmem with h1 | h2
    · exact not_mem_names_removeName_of_not_mem
        (names_foldl_removeName_of_mem HOP hm name hname) h1
    · have : name = "host" := by simpa using h2
      subst this
      revert hname
      decide
  · obtain ⟨rb, hrb⟩ := hbody
    simp [handle, hws, handleForward, hrb, hup, hbs]

/-- C1, witness for the amended theorem at a concrete configuration,
header map and environment. -/
theorem C1_amended_witness :
    "connection" ∉ (copy_headers_forward
        [("connection", strBytes "keep-alive")] cfgBase).names ∧
    (handle cfgBase envPlain).result =
      .ok ⟨200, [("transfer-encoding", strBytes "chunked"),
                 ("content-type", strBytes "text/html")], strBytes "ok"⟩ :=
  C1_amended cfgBase [("connection", strBytes "keep-alive")] "connection"
    envPlain
    ⟨200, [("transfer-encoding", strBytes "chunked"),
           ("content-type", strBytes "text/html")], some (strBytes "ok")⟩
    (strBytes "ok")
    (by decide) (by decide) ⟨[], rfl⟩ rfl rfl

/-! ### C2 -/

/-- A configuration whose Host override is not a legal header value (it
contains a line feed); `HeaderValue::from_str` fails on it and the code
falls back to the literal `localhost`. -/
def cfgBadHost : Config :=
  { cfgBase with upstream_host := some "bad\nhost" }

theorem getH_wsForwardHeaders_host (cfg : Config) (env : ForwardEnv) :
    (wsForwardHeaders cfg env).getH "host" =
      (copy_headers_forward env.reqHeaders cfg).getH "host" := by
  unfold wsForwardHeaders
  rw [getH_optInsert_ne _ _ (by decide), getH_optInsert_ne _ _ (by decide),
      getH_optInsert_ne _ _ (by decide), getH_optInsert_ne _ _ (by decide),
      getH_optInsert_ne _ _ (by decide), getH_optInsert_ne _ _ (by decide)]

/-- C2, counterexample.  With the Host override set to `"bad\nhost"` (a
value the CLI accepts but that is not a legal header value) the host
header sent upstream is the literal `localhost` — neither the configured
override nor the target authority, contradicting "it is never any other
value". -/
theorem C2_counterexample :
    (copy_headers_forward [("host", strBytes "client.example")] cfgBadHost).getH "host"
      = some (strBytes "localhost") ∧
    strBytes "localhost" ≠ strBytes "bad\nhost" ∧
    strBytes "localhost" ≠ strBytes cfgBadHost.target_authority := by
  decide

/-- C2, amended: provided the chosen host value (the configured override
when set, else the target authority) is a legal header value, every
forwarded request — plain or WebSocket handshake — carries exactly that
value as its `host` header, regardless of the client's original Host;
when it is not a legal header value the literal `localhost` is sent
instead. -/
theorem C2_amended (cfg : Config) (hm : HeaderMap) (env : ForwardEnv) (req : Request)
    (hvalid : (strBytes (cfg.upstream_host.getD cfg.target_authority)).all
        isLegalHeaderValueByte = true)
    (hreq : (handle cfg env).forwardedReq = some req) :
    (copy_headers_forward hm cfg).getH "host"
      = some (strBytes (cfg.upstream_host.getD cfg.target_authority)) ∧
    req.headers.getH "host"
      = some (strBytes (cfg.upstream_host.getD cfg.target_authority)) := by
  have hhost : ∀ h : HeaderMap, (copy_headers_forward h cfg).getH "host"
      = some (strBytes (cfg.upstream_host.getD cfg.target_authority)) := by
    intro h
    simp only [copy_headers_forward, headerValueFromStr, hvalid, eq_self_iff_true,
      if_true, Option.getD_some]
    exact getH_insertH_self _ _ _
  refine ⟨hhost hm, ?_⟩
  have hwsHost : (wsForwardHeaders cfg env).getH "host"
      = some (strBytes (cfg.upstream_host.getD cfg.target_authority)) := by
    rw [getH_wsForwardHeaders_host]
    exact hhost _
  unfold handle at hreq
  by_cases hws : is_websocket_upgrade env.reqHeaders = true
  · rw [if_pos hws] at hreq
    unfold handleWs at hreq
    cases hu : env.upstream with
    | none =>
      simp [hu] at hreq
      subst hreq
      exact hwsHost
    | some up =>
      by_cases h101 : up.status = 101
      · simp [hu, h101] at hreq
        subst hreq
        exact hwsHost
      · simp [hu, h101] at hreq
        subst hreq
        exact hwsHost
  · rw [if_neg hws] at hreq
    unfold handleForward at hreq
    cases hb : env.bodyRead with
    | none => simp [hb] at hreq
    | some rb =>
      cases hu : env.upstream with
      | none =>
        simp [hb, hu] at hreq
        subst hreq
        exact hhost _
      | some up =>
        cases hub : up.bodyRead with
        | none =>
          simp [hb, hu, hub] at hreq
          subst hreq
          exact hhost _
        | some rbs =>
          simp [hb, hu, hub] at hreq
          subst hreq
          exact hhost _

/-- The forwarded request built from `envPlain` under `cfgBase`, used as a
concrete witness input. -/
def reqPlainForwarded : Request :=
  { method := "GET"
  , uri := remap_uri envPlain.reqUri cfgBase
  , headers := copy_headers_forward envPlain.reqHeaders cfgBase
  , body := [] }

/-- C2, witness for the amended theorem: the base configuration has no
override, so the host sent upstream is the target authority. -/
theorem C2_amended_witness :
    (copy_headers_forward [("host", strBytes "client.example")] cfgBase).getH "host"
      = some (strBytes (cfgBase.upstream_host.getD cfgBase.target_authority)) ∧
    reqPlainForwarded.headers.getH "host"
      = some (strBytes (cfgBase.upstream_host.getD cfgBase.target_authority)) :=
  C2_amended cfgBase [("host", strBytes "client.example")] envPlain
    reqPlainForwarded (by decide) (by decide)

/-! ### C3 -/

/-- Well-formed URI scheme: nonempty, legal characters, starts with a
letter. -/
def validScheme (s : String) : Bool :=
  !s.data.isEmpty && s.data.all isSchemeChar && s.data.head?.any Char.isAlpha

/-- Well-formed URI authority: nonempty and made of authority
characters. -/
def validAuthority (s : String) : Bool :=
  !s.data.isEmpty && s.data.all isAuthorityChar

/-- Well-formed path-and-query: starts with `/` and made of printable
non-space characters. -/
def validPathQuery (s : String) : Bool :=
  s.data.head? = some (Char.ofNat 47) && s.data.all isPathQueryChar

theorem splitFirst_append (sep : Char) (l₁ l₂ : List Char) (h : sep ∉ l₁) :
    splitFirst sep (l₁ ++ sep :: l₂) = some (l₁, l₂) := by
  induction l₁ with
  | nil => simp [splitFirst]
  | cons a t ih =>
    have hne : a ≠ sep := fun he => h (by simp [he])
    simp [splitFirst, hne, ih (fun hm => h (List.mem_cons.mpr (Or.inr hm)))]

theorem takeWhile_append_stop {α : Type} (p : α → Bool) (l₁ : List α) (c : α)
    (l₂ : List α) (h₁ : ∀ x ∈ l₁, p x = true) (hc : p c = false) :
    (l₁ ++ c :: l₂).takeWhile p = l₁ := by
  induction l₁ with
  | nil => simp [List.takeWhile_cons, hc]
  | cons a t ih =>
    have ha := h₁ a (by simp)
    simp [List.takeWhile_cons, ha, ih (fun x hx => h₁ x (by simp [hx]))]

theorem parseUri_wellFormed (scheme auth pq : String)
    (hs : validScheme scheme = true) (ha : validAuthority auth = true)
    (hp : validPathQuery pq = true) :
    parseUri (scheme ++ "://" ++ auth ++ pq) = some ⟨some scheme, some auth, some pq⟩ := by
  obtain ⟨⟨hs1, hs2⟩, hs3⟩ : (¬scheme.data = [] ∧
      ∀ x ∈ scheme.data, isSchemeChar x = true) ∧
      (scheme.data.head?.any Char.isAlpha) = true := by
    simpa [validScheme, Bool.and_eq_true] using hs
  obtain ⟨ha1, ha2⟩ : ¬auth.data = [] ∧
      ∀ x ∈ auth.data, isAuthorityChar x = true := by
    simpa [validAuthority, Bool.and_eq_true] using ha
  obtain ⟨hp1, hp2⟩ : pq.data.head? = some (Char.ofNat 47) ∧
      ∀ x ∈ pq.data, isPathQueryChar x = true := by
    simpa [validPathQuery, Bool.and_eq_true] using hp
  have hdata : (scheme ++ "://" ++ auth ++ pq).data =
      scheme.data ++ Char.ofNat 58 :: Char.ofNat 47 :: Char.ofNat 47 ::
        (auth.data ++ pq.data) := by
    rw [String.data_append, String.data_append, String.data_append]
    have : ("://" : String).data = [Char.ofNat 58, Char.ofNat 47, Char.ofNat 47] := by
      decide
    rw [this]
    simp
  have hnosep : Char.ofNat 58 ∉ scheme.data := by
    intro hmem
    have := hs2 _ hmem
    simp [isSchemeChar] at this
  unfold parseUri
  rw [hdata, splitFirst_append _ _ _ hnosep]
  simp only []
  rw [if_pos (⟨by trivial, by trivial⟩ : _ ∧ _)]
  obtain ⟨pqtl, hpq⟩ : ∃ tl, pq.data = Char.ofNat 47 :: tl := by
    cases hpqd : pq.data with
    | nil => rw [hpqd] at hp1; cases hp1
    | cons a tl =>
      rw [hpqd] at hp1
      simp at hp1
      exact ⟨tl, by rw [hp1]⟩
  have hpredAuth : ∀ x ∈ auth.data,
      (isAuthorityChar x && x ≠ Char.ofNat 47 && x ≠ Char.ofNat 63 &&
        x ≠ Char.ofNat 35) = true := by
    intro x hx
    have hax := ha2 _ hx
    have h47 : x ≠ Char.ofNat 47 := by
      intro he; rw [he] at hax; simp [isAuthorityChar] at hax
    have h63 : x ≠ Char.ofNat 63 := by
      intro he; rw [he] at hax; simp [isAuthorityChar] at hax
    have h35 : x ≠ Char.ofNat 35 := by
      intro he; rw [he] at hax; simp [isAuthorityChar] at hax
    simp [hax, h47, h63, h35]
  have hpredStop : (isAuthorityChar (Char.ofNat 47) &&
      Char.ofNat 47 ≠ Char.ofNat 47 && Char.ofNat 47 ≠ Char.ofNat 63 &&
      Char.ofNat 47 ≠ Char.ofNat 35) = false := by decide
  have htake : (auth.data ++ pq.data).takeWhile (fun c =>
      isAuthorityChar c && c ≠ Char.ofNat 47 && c ≠ Char.ofNat 63 &&
        c ≠ Char.ofNat 35) = auth.data := by
    rw [hpq]
    exact takeWhile_append_stop _ _ _ _ hpredAuth hpredStop
  rw [htake]
  rw [List.drop_left]
  have hpqne : pq.data ≠ [] := by rw [hpq]; simp
  rw [if_pos ?cond]
  case cond =>
    refine ⟨by simpa using hs1, List.all_eq_true.mpr hs2, hs3,
      by simpa using ha1, List.all_eq_true.mpr hp2, Or.inr hp1⟩
  rw [if_neg hpqne]

/-- A configuration whose target authority contains a space, so the
rebuilt absolute URI fails to parse and `remap_uri` falls back to `/`. -/
def cfgBadAuth : Config :=
  { cfgBase with target_authority := "bad host" }

/-- C3, counterexample.  With target authority `"bad host"` (accepted
verbatim from the CLI, never validated) the rebuilt URI string does not
parse, so `remap_uri` falls back to the URI `/`: the forwarded URI loses
the client's path and query `/foo?x=1` entirely. -/
theorem C3_counterexample :
    remap_uri ⟨none, none, some "/foo?x=1"⟩ cfgBadAuth = uriRoot ∧
    uriRoot.pathAndQuery ≠ some "/foo?x=1" := by
  decide

/-- C3, amended: whenever the configured scheme and authority are
well-formed and the client URI's path-and-query (with `/` substituted when
absent) starts with `/`, the forwarded URI carries exactly the original
path-and-query with scheme and authority replaced by the configured
target; when the rebuilt string does not parse the forwarded URI degrades
to `/`. -/
theorem C3_amended (uri : Uri) (cfg : Config)
    (hs : validScheme cfg.target_scheme = true)
    (ha : validAuthority cfg.target_authority = true)
    (hp : validPathQuery (uri.pathAndQuery.getD "/") = true) :
    remap_uri uri cfg =
      ⟨some cfg.target_scheme, some cfg.target_authority,
       some (uri.pathAndQuery.getD "/")⟩ := by
  simp only [remap_uri]
  rw [parseUri_wellFormed _ _ _ hs ha hp]
  rfl

/-- C3, witness for the amended theorem at the base configuration and a
URI with both path and query. -/
theorem C3_amended_witness :
    validScheme cfgBase.target_scheme = true ∧
    validAuthority cfgBase.target_authority = true ∧
    validPathQuery ((⟨none, none, some "/foo?x=1"⟩ : Uri).pathAndQuery.getD "/") = true ∧
    remap_uri ⟨none, none, some "/foo?x=1"⟩ cfgBase =
      ⟨some cfgBase.target_scheme, some cfgBase.target_authority, some "/foo?x=1"⟩ :=
  ⟨by decide, by decide, by decide,
   C3_amended ⟨none, none, some "/foo?x=1"⟩ cfgBase (by decide) (by decide) (by decide)⟩

/-! ### C4 -/

/-- C4: the relay task is spawned exactly when the request is a WebSocket
upgrade and the upstream answered 101; on any other upstream status of an
upgrade request the client gets the synthesized 502 and no relay is ever
started. -/
theorem C4_ws_gating (cfg : Config) (env : ForwardEnv) :
    ((handle cfg env).relaySpawned = true ↔
      (is_websocket_upgrade env.reqHeaders = true ∧
        ∃ up, env.upstream = some up ∧ up.status = 101)) ∧
    (∀ up, is_websocket_upgrade env.reqHeaders = true →
      env.upstream = some up → up.status ≠ 101 →
      (handle cfg env).result =
        .ok (simple_response 502 "upstream did not switch protocols") ∧
      (handle cfg env).relaySpawned = false) := by
  unfold handle
  by_cases hws : is_websocket_upgrade env.reqHeaders = true
  · rw [if_pos hws]
    unfold handleWs
    cases hu : env.upstream with
    | none => simp [hws, hu]
    | some up =>
      by_cases h101 : up.status = 101
      · simp [hws, hu, h101]
      · simp [hws, hu, h101]
  · rw [if_neg hws]
    unfold handleForward
    cases hb : env.bodyRead with
    | none => simp [hws, hb]
    | some rb =>
      cases hu : env.upstream with
      | none => simp [hws, hb, hu]
      | some up =>
        cases hub : up.bodyRead with
        | none => simp [hws, hb, hu, hub]
        | some rbs => simp [hws, hb, hu, hub]

/-- C4, witness: a concrete upgrade request answered 200 by upstream gets
the 502 and no relay. -/
theorem C4_ws_gating_witness :
    (handle cfgBase envWs200).result =
      .ok (simple_response 502 "upstream did not switch protocols") ∧
    (handle cfgBase envWs200).relaySpawned = false :=
  (C4_ws_gating cfgBase envWs200).2 ⟨200, [], some []⟩ (by decide) rfl (by decide)

/-! ### C5 -/

/-- C5: the handler always returns `Ok` (the connection task survives),
and synthesizes exactly the five error responses — 400 `body error` on a
request body failure, 502 `upstream connection failed` on a failed
dispatch, 502 `upstream body error` on a response body failure, 502
`upstream WS handshake failed` on a failed WebSocket dispatch, and 502
`upstream did not switch protocols` on a non-101 answer to an upgrade —
each carrying a `text/plain; charset=utf-8` body. -/
theorem C5_synthesized_errors (cfg : Config) (env : ForwardEnv) :
    (∃ r, (handle cfg env).result = .ok r) ∧
    (is_websocket_upgrade env.reqHeaders = false → env.bodyRead = none →
      (handle cfg env).result = .ok (simple_response 400 "body error")) ∧
    (is_websocket_upgrade env.reqHeaders = false → env.bodyRead ≠ none →
      env.upstream = none →
      (handle cfg env).result = .ok (simple_response 502 "upstream connection failed")) ∧
    (∀ up, is_websocket_upgrade env.reqHeaders = false → env.bodyRead ≠ none →
      env.upstream = some up → up.bodyRead = none →
      (handle cfg env).result = .ok (simple_response 502 "upstream body error")) ∧
    (is_websocket_upgrade env.reqHeaders = true → env.upstream = none →
      (handle cfg env).result = .ok (simple_response 502 "upstream WS handshake failed")) ∧
    (∀ up, is_websocket_upgrade env.reqHeaders = true → env.upstream = some up →
      up.status ≠ 101 →
      (handle cfg env).result =
        .ok (simple_response 502 "upstream did not switch protocols")) ∧
    (∀ (st : Nat) (msg : String), (simple_response st msg).headers =
      [("content-type", strBytes "text/plain; charset=utf-8")]) := by
  have hsimple : ∀ (st : Nat) (msg : String), (simple_response st msg).headers =
      [("content-type", strBytes "text/plain; charset=utf-8")] := fun _ _ => rfl
  unfold handle
  by_cases hws : is_websocket_upgrade env.reqHeaders = true
  · rw [if_pos hws]
    unfold handleWs
    cases hu : env.upstream with
    | none => simp [hws, hu, hsimple]
    | some up =>
      by_cases h101 : up.status = 101
      · simp [hws, hu, h101, hsimple]
      · simp [hws, hu, h101, hsimple]
  · rw [if_neg hws]
    unfold handleForward
    cases hb : env.bodyRead with
    | none => simp [hws, hb, hsimple]
    | some rb =>
      cases hu : env.upstream with
      | none => simp [hws, hb, hu, hsimple]
      | some up =>
        cases hub : up.bodyRead with
        | none => simp [hws, hb, hu, hub, hsimple]
        | some rbs => simp [hws, hb, hu, hub, hsimple]

/-- A plain request environment whose body read fails. -/
def envBodyErr : ForwardEnv :=
  { envPlain with bodyRead := none }

/-- C5, witness: a concrete body-read failure yields the synthesized 400
and the task still returns `Ok`. -/
theorem C5_synthesized_errors_witness :
    (handle cfgBase envBodyErr).result = .ok (simple_response 400 "body error") :=
  (C5_synthesized_errors cfgBase envBodyErr).2.1 (by decide) rfl

/-! ### C6 -/

theorem mintIds_eq_range' (n c : Nat) (h : c + n ≤ 2 ^ 64) :
    mintIds n c = List.range' c n := by
  induction n generalizing c with
  | zero => rfl
  | succ m ih =>
    show (next_conn_id c).1 :: mintIds m (next_conn_id c).2 = List.range' c (m + 1)
    unfold next_conn_id
    rw [List.range'_succ]
    cases m with
    | zero => rfl
    | succ m' =>
      have hc1 : c + 1 < 2 ^ 64 := by omega
      have hmod : (c + 1) % 2 ^ 64 = c + 1 := Nat.mod_eq_of_lt hc1
      simp only [hmod]
      rw [ih (c + 1) (by omega)]

/-- C6: starting from the initial counter value 1, any `n ≤ 2^64 - 1`
mints (the only physically realisable case for a `u64` counter; atomicity
of `fetch_add` linearises concurrent mints into exactly this sequence)
produce `n` ids that are strictly increasing — in particular pairwise
distinct, a set of size `n`. -/
theorem C6_conn_ids_unique (n : Nat) (h : n + 1 ≤ 2 ^ 64) :
    (mintIds n initialConnSeq).length = n ∧
    (mintIds n initialConnSeq).Pairwise (· < ·) ∧
    (mintIds n initialConnSeq).Nodup ∧
    (mintIds n initialConnSeq).toFinset.card = n := by
  have he : mintIds n initialConnSeq = List.range' 1 n :=
    mintIds_eq_range' n 1 (by omega)
  rw [he]
  have hpw : (List.range' 1 n).Pairwise (· < ·) := List.pairwise_lt_range' 1 n
  have hnd : (List.range' 1 n).Nodup := List.nodup_range' 1 n
  refine ⟨List.length_range' 1 1 n, hpw, hnd, ?_⟩
  rw [List.toFinset_card_of_nodup hnd]
  exact List.length_range' 1 1 n

/-- C6, witness at `n = 5`: the ids are `[1, 2, 3, 4, 5]`. -/
theorem C6_conn_ids_unique_witness :
    (mintIds 5 initialConnSeq).length = 5 ∧
    (mintIds 5 initialConnSeq).Pairwise (· < ·) ∧
    (mintIds 5 initialConnSeq).Nodup ∧
    (mintIds 5 initialConnSeq).toFinset.card = 5 :=
  C6_conn_ids_unique 5 (by norm_num)

/-! ### C7 -/

/-- C7, counterexample.  With `max_body_bytes = 0` and the one-byte body
`[97]` the body length (1) exceeds the cap (0), yet no truncation marker
is printed: `print_body` takes the `<no body>` branch, which the claim
reserves for empty bodies. -/
theorem C7_counterexample :
    print_body [97] 0 = BodyPreview.noBody ∧ ([97] : List Nat).length > 0 := by
  decide

/-- C7, amended: the preview always decodes (permissively, total) at most
`max` bytes of the body; when the cap is positive and the body exceeds it,
the first `max` bytes are shown with the truncation marker; when the body
fits and is nonempty the whole body is shown; and the `<no body>` marker
appears exactly when `min (length, max) = 0`, i.e. for an empty body or a
zero cap.  Concretely, with `max_body_bytes = 10` and the 20-byte body
`abcdefghijklmnopqrst` the preview is exactly `abcdefghij` plus the
truncation marker. -/
theorem C7_body_preview (body : List Nat) (max : Nat) :
    (body = [] → print_body body max = .noBody) ∧
    (max = 0 → print_body body max = .noBody) ∧
    (0 < max → body.length > max →
      print_body body max = .truncated (utf8Lossy (body.take max)) max body.length) ∧
    (0 < body.length → body.length ≤ max →
      print_body body max = .full (utf8Lossy body) body.length) ∧
    print_body (strBytes "abcdefghijklmnopqrst") 10 =
      .truncated "abcdefghij" 10 20 := by
  refine ⟨?_, ?_, ?_, ?_, by decide⟩
  · intro h
    subst h
    simp [print_body]
  · intro h
    subst h
    simp [print_body]
  · intro hmax hlen
    have hmin : Nat.min body.length max = max := Nat.min_eq_right (Nat.le_of_lt hlen)
    simp only [print_body, hmin]
    rw [if_neg (by omega), if_pos (by omega)]
  · intro hpos hle
    have hmin : Nat.min body.length max = body.length := Nat.min_eq_left hle
    simp only [print_body, hmin]
    rw [if_neg (by omega), if_neg (by omega), List.take_length]

/-- C7, witness for the amended theorem at the concrete 20-byte body with
cap 10. -/
theorem C7_body_preview_witness :
    print_body (strBytes "abcdefghijklmnopqrst") 10 =
      .truncated (utf8Lossy ((strBytes "abcdefghijklmnopqrst").take 10)) 10
        (strBytes "abcdefghijklmnopqrst").length :=
  (C7_body_preview (strBytes "abcdefghijklmnopqrst") 10).2.2.1
    (by decide) (by decide)

/-! ### C8 -/

theorem mem_insertSorted {x y : String} {l : List String} :
    x ∈ insertSorted y l ↔ x = y ∨ x ∈ l := by
  induction l with
  | nil => simp [insertSorted]
  | cons a t ih =>
    unfold insertSorted
    by_cases h : y ≤ a
    · rw [if_pos h]
      simp
    · rw [if_neg h]
      simp [ih]
      tauto

theorem mem_sortNames {x : String} {l : List String} :
    x ∈ sortNames l ↔ x ∈ l := by
  induction l with
  | nil => simp [sortNames]
  | cons a t ih =>
    show x ∈ insertSorted a (sortNames t) ↔ _
    rw [mem_insertSorted, ih]
    simp

theorem getH_some_mem_names {m : HeaderMap} {n : String} {v : List Nat}
    (h : m.getH n = some v) : n ∈ m.names := by
  unfold HeaderMap.getH at h
  cases hf : List.find? (fun e => e.1 = n) m with
  | none => rw [hf] at h; cases h
  | some e =>
    have hm := List.mem_of_find?_eq_some hf
    have hp := List.find?_some hf
    simp only [decide_eq_true_eq] at hp
    exact List.mem_map.mpr ⟨e, hm, hp⟩

theorem displayHeader_redacted {headers : HeaderMap} {redact : List String}
    {name : String} {v : List Nat}
    (hget : headers.getH name = some v)
    (hmatch : redact.any (fun r => eqIgnoreAsciiCase r name) = true) :
    displayHeader headers redact name = some (name, "<redacted>") := by
  unfold displayHeader
  rw [hget]
  simp [hmatch]

theorem displayHeader_plain {headers : HeaderMap} {redact : List String}
    {name : String} {v : List Nat} {s : String}
    (hget : headers.getH name = some v)
    (hmatch : redact.any (fun r => eqIgnoreAsciiCase r name) = false)
    (hstr : headerValueToStr v = some s) :
    displayHeader headers redact name = some (name, s) := by
  unfold displayHeader
  rw [hget]
  simp [hmatch, hstr]

theorem mem_print_headers_of_display {headers : HeaderMap} {redact : List String}
    {name d : String} (hn : name ∈ headers.names)
    (hd : displayHeader headers redact name = some (name, d)) :
    (name, d) ∈ print_headers headers redact := by
  unfold print_headers
  exact List.mem_filterMap.mpr ⟨name, mem_sortNames.mpr (List.mem_dedup.mpr hn), hd⟩

/-- A configuration that redacts the `host` header name. -/
def cfgRedactHost : Config :=
  { cfgBase with redact_header := ["host"] }

/-- C8, counterexample.  With redact set `{host}` the matched header is
logged as `<redacted>`, but the value forwarded upstream is NOT the
client's original value: `copy_headers_forward` overwrites `host` with the
target authority, so "the value actually forwarded is the original value,
byte-for-byte" fails for the matched name `host`. -/
theorem C8_counterexample :
    print_headers (copy_headers_forward [("host", strBytes "client.example")] cfgRedactHost)
        cfgRedactHost.redact_header = [("host", "<redacted>")] ∧
    (copy_headers_forward [("host", strBytes "client.example")] cfgRedactHost).getH "host"
      = some (strBytes "up.example:8080") ∧
    strBytes "up.example:8080" ≠ strBytes "client.example" := by
  decide

/-- C8, amended: every header other than `host` and the hop-by-hop set is
forwarded byte-for-byte unmodified; every header name matching the redact
set case-insensitively is logged as the fixed `<redacted>` marker; a
non-matching header is logged with its real value whenever that value is
visible-ASCII (otherwise the logger prints a byte-count placeholder). -/
theorem C8_redaction (cfg : Config) (hm : HeaderMap) (name : String) (v : List Nat)
    (headers : HeaderMap) (redact : List String) (s : String) :
    (name ∉ HOP → name ≠ "host" → (name, v) ∈ hm →
      (name, v) ∈ copy_headers_forward hm cfg) ∧
    (headers.getH name = some v →
      redact.any (fun r => eqIgnoreAsciiCase r name) = true →
      (name, "<redacted>") ∈ print_headers headers redact) ∧
    (headers.getH name = some v →
      redact.any (fun r => eqIgnoreAsciiCase r name) = false →
      headerValueToStr v = some s →
      (name, s) ∈ print_headers headers redact) := by
  refine ⟨?_, ?_, ?_⟩
  · intro h1 h2 h3
    unfold copy_headers_forward HeaderMap.insertH
    exact List.mem_append.mpr (Or.inl (mem_removeName (mem_foldl_removeName h3 h1) h2))
  · intro hget hmatch
    exact mem_print_headers_of_display (getH_some_mem_names hget)
      (displayHeader_redacted hget hmatch)
  · intro hget hmatch hstr
    exact mem_print_headers_of_display (getH_some_mem_names hget)
      (displayHeader_plain hget hmatch hstr)

/-- C8, witness: with redact set `{authorization}`, the `Authorization`
value `secret` is forwarded byte-for-byte and logged as `<redacted>`,
while a non-matching `accept` header is logged with its real value. -/
theorem C8_redaction_witness :
    ("authorization", strBytes "secret") ∈
      copy_headers_forward [("authorization", strBytes "secret")] cfgBase ∧
    ("authorization", "<redacted>") ∈
      print_headers [("authorization", strBytes "secret")] ["authorization"] ∧
    ("accept", "*/*") ∈ print_headers [("accept", strBytes "*/*")] ["authorization"] :=
  ⟨(C8_redaction cfgBase [("authorization", strBytes "secret")] "authorization"
      (strBytes "secret") [] [] "").1 (by decide) (by decide) (by decide),
   (C8_redaction cfgBase [] "authorization" (strBytes "secret")
      [("authorization", strBytes "secret")] ["authorization"] "").2.1
      (by decide) (by decide),
   (C8_redaction cfgBase [] "accept" (strBytes "*/*")
      [("accept", strBytes "*/*")] ["authorization"] "*/*").2.2
      (by decide) (by decide) (by decide)⟩

/-! ### C9 -/

/-- The trigger condition exactly as the claim words it (spec-side
refinement predicate): an `upgrade` header equal to `websocket`
case-insensitively, and a `connection` header one of whose comma-separated
tokens, after trimming, equals `upgrade` case-insensitively. -/
def wsUpgradeSpec (headers : HeaderMap) : Prop :=
  (∃ v s, headers.getH "upgrade" = some v ∧ headerValueToStr v = some s ∧
    eqIgnoreAsciiCase s "websocket" = true) ∧
  (∃ v s t, headers.getH "connection" = some v ∧ headerValueToStr v = some s ∧
    t ∈ splitChar (Char.ofNat 44) s.data ∧
    eqIgnoreAsciiCase (String.mk (trimChars t)) "upgrade" = true)

theorem is_websocket_upgrade_iff (headers : HeaderMap) :
    is_websocket_upgrade headers = true ↔ wsUpgradeSpec headers := by
  unfold is_websocket_upgrade wsUpgradeSpec
  cases hg1 : headers.getH "upgrade" with
  | none => simp [hg1]
  | some v1 =>
    cases ht1 : headerValueToStr v1 with
    | none => simp [hg1, ht1]
    | some s1 =>
      cases he1 : eqIgnoreAsciiCase s1 "websocket" with
      | false => simp [hg1, ht1, he1]
      | true =>
        cases hg2 : headers.getH "connection" with
        | none => simp [hg1, ht1, he1, hg2]
        | some v2 =>
          cases ht2 : headerValueToStr v2 with
          | none => simp [hg1, ht1, he1, hg2, ht2]
          | some s2 => simp [hg1, ht1, he1, hg2, ht2, List.any_eq_true]

theorem handle_tunneled (cfg : Config) (env : ForwardEnv) :
    (handle cfg env).tunneled = is_websocket_upgrade env.reqHeaders := by
  unfold handle
  by_cases hws : is_websocket_upgrade env.reqHeaders = true
  · rw [if_pos hws, hws]
    unfold handleWs
    cases hu : env.upstream with
    | none => simp
    | some up => by_cases h101 : up.status = 101 <;> simp [h101]
  · rw [if_neg hws]
    have hf : is_websocket_upgrade env.reqHeaders = false := by simpa using hws
    rw [hf]
    unfold handleForward
    cases hb : env.bodyRead with
    | none => simp
    | some rb =>
      cases hu : env.upstream with
      | none => simp
      | some up =>
        cases hub : up.bodyRead with
        | none => simp [hub]
        | some x => simp [hub]

/-- C9: a request is dispatched to the WebSocket tunnel path iff it
satisfies exactly the claimed trigger condition (token match on the
`connection` header, value match on `upgrade`); in particular a
`connection` token merely containing `upgrade` as a substring does not
trigger tunneling, while a trimmed case-insensitive token match does. -/
theorem C9_ws_trigger (cfg : Config) (env : ForwardEnv) :
    ((handle cfg env).tunneled = true ↔ wsUpgradeSpec env.reqHeaders) ∧
    is_websocket_upgrade [("upgrade", strBytes "websocket"),
      ("connection", strBytes "keep-alive, myupgradetoken")] = false ∧
    is_websocket_upgrade [("upgrade", strBytes "WebSocket"),
      ("connection", strBytes "keep-alive, Upgrade")] = true := by
  refine ⟨?_, by decide, by decide⟩
  rw [handle_tunneled]
  exact is_websocket_upgrade_iff env.reqHeaders

/-- C9, witness: a concrete upgrade request environment is dispatched to
the tunnel path. -/
theorem C9_ws_trigger_witness :
    (handle cfgBase envWs200).tunneled = true :=
  (C9_ws_trigger cfgBase envWs200).1.mpr
    ⟨⟨strBytes "websocket", "websocket", by decide, by decide, by decide⟩,
     ⟨strBytes "keep-alive, Upgrade", "keep-alive, Upgrade", (" Upgrade").data,
      by decide, by decide, by decide, by decide⟩⟩

/-! ### C10 -/

/-- C10: for every forwarded non-tunnel request the stats event emitted
carries the client's original pre-rewrite path-and-query string (query
included, `/` when absent), and the aggregator keys records by that full
string, so the same path with two different query strings yields two
distinct records. -/
theorem C10_stats_path (cfg : Config) (env : ForwardEnv) (rb : List Nat)
    (e1 e2 : StatsEvent) :
    (cfg.hasStats = true → is_websocket_upgrade env.reqHeaders = false →
      env.bodyRead = some rb →
      (handle cfg env).stats =
        [⟨env.reqMethod, env.reqUri.pathAndQuery.getD "/", env.now⟩]) ∧
    (e1.path ≠ e2.path →
      ((Aggregator.empty.apply e1).apply e2).map.map Prod.fst = [e1.path, e2.path]) := by
  constructor
  · intro hs hws hb
    unfold handle
    rw [if_neg (by simp [hws])]
    unfold handleForward
    rw [hb]
    simp only [hs, if_true]
    cases hu : env.upstream with
    | none => simp
    | some up =>
      cases hub : up.bodyRead with
      | none => simp [hub]
      | some x => simp [hub]
  · intro hne
    unfold Aggregator.apply Aggregator.empty
    simp [List.find?_cons, hne]

/-- C10, witness: the stats event of a concrete forwarded request carries
`/foo?x=1` (the original path-and-query), and two events for path `/a`
with different query strings produce two aggregation records. -/
theorem C10_stats_path_witness :
    (handle cfgBase envPlain).stats =
      [⟨envPlain.reqMethod, envPlain.reqUri.pathAndQuery.getD "/", envPlain.now⟩] ∧
    ((Aggregator.empty.apply ⟨"GET", "/a?x=1", 0⟩).apply ⟨"GET", "/a?x=2", 1⟩).map.map
        Prod.fst = ["/a?x=1", "/a?x=2"] :=
  ⟨(C10_stats_path cfgBase envPlain [] ⟨"GET", "/a?x=1", 0⟩ ⟨"GET", "/a?x=2", 1⟩).1
      (by decide) (by decide) rfl,
   (C10_stats_path cfgBase envPlain [] ⟨"GET", "/a?x=1", 0⟩ ⟨"GET", "/a?x=2", 1⟩).2
      (by decide)⟩

end HttpTap
